import Mathlib

/-!
Verification of the Mobiflight X-Plane-to-WinWing CDU relay scripts.

The development shallowly embeds the four aircraft scripts
(`xcrafts_ejets.py`, `ToLiss_a3xx.py`, `flightfactor_75_76.py`,
`zibo_737_800x.py`): the pure decoding functions become Lean functions over
association lists, Python exceptions become `Option` failures, and the
asyncio queue handoff between the feed client and the display sender becomes
an explicit step relation.

Modelling conventions, used throughout:
* Python dicts are association lists in insertion order; assignment to an
  existing key keeps its position (`upsert`).
* A dataref value is a `WireVal`: either a text value (a Python `str`, held
  after the base64 transport decoding that the feed performs) or a number.
  Operations that Python would fail on with an uncaught exception
  (`int()` on non-digits, out-of-range indexing, a string method on a
  number, a missing dict key) return `none`.
* Python one-character strings (characters of iterated strings, color
  codes such as "w") are `Char`.
-/

set_option maxRecDepth 100000

/-- Number of display columns (`CDU_COLUMNS = 24` in every script). -/
def CDU_COLUMNS : Nat := 24

/-- Number of display rows (`CDU_ROWS = 14` in every script). -/
def CDU_ROWS : Nat := 14

/-- A raw dataref value: decoded text or a number. -/
inductive WireVal where
  | s (v : String)
  | n (v : Int)
deriving DecidableEq

/-- Cell size field: the scripts store either a Python int (0/1 or a packed
digit) or, in the FlightFactor script, a character drawn from the
`symbolsSize` string. -/
inductive CellSize where
  | int (n : Int)
  | ch (c : Char)
deriving DecidableEq

/-- One display cell: empty (Python `[]`) or a `[character, color, size]`
triple. -/
inductive Cell where
  | empty
  | mk (char : Char) (color : Char) (size : CellSize)
deriving DecidableEq

/-- A dataref snapshot: dataref name to last decoded value, in insertion
order, mirroring the Python `last_known_values` dict. -/
abbrev Snapshot := List (String × WireVal)

/-- The display wire message `{"Target": ..., "Data": ...}` produced by
`json.dumps`; modelled structurally. -/
structure DisplayMsg where
  target : String
  data : List Cell
deriving DecidableEq

/-! Python primitive helpers. -/

/-- Python `str[a:b]` (slices clamp, never raise). -/
def pySliceStr (s : String) (a b : Nat) : String :=
  String.mk ((s.data.drop a).take (b - a))

/-- Python `str[a:]`. -/
def pyDropStr (s : String) (a : Nat) : String :=
  String.mk (s.data.drop a)

/-- Python `str[i]` for `i ≥ 0`: `none` is an `IndexError`. -/
def pyCharAt (s : String) (i : Nat) : Option Char :=
  s.data.get? i

/-- Whitespace test for the characters the scripts may meet. -/
def isWs (c : Char) : Bool :=
  c = ' ' || c = '\t' || c = '\n' || c = '\r'

/-- Python `str.strip()` with no argument. -/
def pyStrip (s : String) : String :=
  String.mk (((s.data.dropWhile isWs).reverse.dropWhile isWs).reverse)

/-- Python `int(str)`: optional sign and at least one digit after stripping
whitespace; `none` is a `ValueError`. -/
def pyInt (s : String) : Option Int :=
  let t := (pyStrip s).data
  let core := match t with
    | c :: rest => if c = '-' || c = '+' then rest else t
    | [] => t
  if core ≠ [] ∧ core.all Char.isDigit then
    let n : Nat := core.foldl (fun a c => a * 10 + (c.toNat - 48)) 0
    some (if t.head? = some '-' then -(n : Int) else (n : Int))
  else none

/-- Python `int(c)` on a one-character string. -/
def charInt (c : Char) : Option Int :=
  if c.isDigit then some ((c.toNat : Int) - 48) else none

/-- Whether `needle` starts `hay` (character lists). -/
def startsWithL : List Char → List Char → Bool
  | _, [] => true
  | [], _ :: _ => false
  | a :: as, b :: bs => a == b && startsWithL as bs

/-- Helper for Python substring containment. -/
def containsSub : List Char → List Char → Bool
  | hay, needle =>
    startsWithL hay needle ||
      match hay with
      | [] => false
      | _ :: t => containsSub t needle

/-- Python `needle in hay` on strings. -/
def pyIn (needle hay : String) : Bool :=
  containsSub hay.data needle.data

/-- Python `str.isspace()`: nonempty and all whitespace. -/
def pyIsSpace (s : String) : Bool :=
  s != "" && s.data.all isWs

/-- Last character of a string with a default; the scripts only take the
suffix of names that grouping has already checked to be nonempty. -/
def strLastD (s : String) (d : Char) : Char :=
  s.data.getLastD d

/-- Python `s.endswith(t)`. -/
def strEndsWith (s t : String) : Bool :=
  startsWithL s.data.reverse t.data.reverse

/-- Python `s.startswith(t)`. -/
def strStartsWith (s t : String) : Bool :=
  startsWithL s.data t.data

/-- Python list assignment `l[i] = c` with negative-index wrap-around;
`none` is an `IndexError`. -/
def pyListSet {α : Type} (l : List α) (i : Int) (c : α) : Option (List α) :=
  if 0 ≤ i ∧ i < (l.length : Int) then some (l.set i.toNat c)
  else if 0 ≤ i + (l.length : Int) ∧ i < 0 then
    some (l.set (i + (l.length : Int)).toNat c)
  else none

/-- Python slice assignment `l[start : start + len repl] = repl` (the
scripts only use it with in-range, length-preserving slices). -/
def pySliceAssign {α : Type} (l : List α) (start : Nat) (repl : List α) : List α :=
  l.take start ++ repl ++ l.drop (start + repl.length)

/-- Python dict assignment `d[n] = v`: replace in place or append. -/
def upsert : Snapshot → String → WireVal → Snapshot
  | [], n, v => [(n, v)]
  | (k, w) :: t, n, v => if k = n then (k, v) :: t else (k, w) :: upsert t n v

/-- The `.replace("\x00", " ")` applied to every base64-decoded value. -/
def nulToSpace (t : String) : String :=
  String.mk (t.data.map (fun c => if c = '\x00' then ' ' else c))

/-! The X-Crafts E-Jets decoder (`xcrafts_ejets.py`). -/

/-- `CHAR_MAP = {"#": BALLOT_BOX, "*": DEGREES}` from `xcrafts_ejets.py`. -/
def xcrafts_char_map : List (Char × Char) :=
  [('#', '☐'), ('*', '°')]

/-- `get_char` from `xcrafts_ejets.py`. -/
def xcrafts_get_char (c : Char) : Char :=
  (xcrafts_char_map.lookup c).getD c

/-- `COLOR_MAP = {}` from `xcrafts_ejets.py`. -/
def xcrafts_color_map : List (Int × Char) := []

/-- `get_color` from `xcrafts_ejets.py`: `COLOR_MAP.get(color, "w")`. -/
def xcrafts_get_color (color : Int) : Char :=
  (xcrafts_color_map.lookup color).getD 'w'

/-- The inner character loop of `translate_values`: writes the non-space
characters of `text` at Python index `index + char_index - 1`, stopping
after column 24. -/
def xcrafts_put_text (index color size : Int) :
    List Char → Nat → List Cell → Option (List Cell)
  | [], _, acc => some acc
  | c :: rest, ci, acc =>
    if ci > CDU_COLUMNS - 1 then some acc
    else if c = ' ' then xcrafts_put_text index color size rest (ci + 1) acc
    else
      match pyListSet acc (index + (ci : Int) - 1)
          (Cell.mk c (xcrafts_get_color color) (CellSize.int size)) with
      | none => none
      | some acc2 => xcrafts_put_text index color size rest (ci + 1) acc2

/-- The dataref loop of `translate_values`: an empty/whitespace value
executes `break` (returning the grid built so far); a packed header that
fails to parse, or an out-of-range write, raises (`none`). -/
def xcrafts_translate_go : Snapshot → List Cell → Option (List Cell)
  | [], acc => some acc
  | (_, v) :: rest, acc =>
    match v with
    | WireVal.n _ => none
    | WireVal.s value =>
      if pyStrip value = "" then some acc
      else
        match pyInt (pySliceStr value 0 2), pyInt (pySliceStr value 2 4),
            pyCharAt value 4, pyCharAt value 5 with
        | some rowRaw, some colRaw, some sizeChar, some colorChar =>
          match charInt sizeChar, charInt colorChar with
          | some size, some color =>
            let row := rowRaw - 1
            let col := colRaw - 1
            let text := pyStrip (pyDropStr value 6)
            if text = "" then xcrafts_translate_go rest acc
            else
              match xcrafts_put_text (row * (CDU_COLUMNS : Int) + col) color size
                  text.data 0 acc with
              | none => none
              | some acc2 => xcrafts_translate_go rest acc2
          | _, _ => none
        | _, _, _, _ => none

/-- `translate_values` from `xcrafts_ejets.py`. -/
def xcrafts_translate_values (values : Snapshot) : Option (List Cell) :=
  xcrafts_translate_go values (List.replicate (CDU_ROWS * CDU_COLUMNS) Cell.empty)

/-- The two physical CDU devices of `xcrafts_ejets.py`. -/
inductive CduDevice where
  | captain
  | coPilot
deriving DecidableEq

/-- `generate_display_json` from `xcrafts_ejets.py`: it calls
`translate_values` (whose exceptions propagate: outer `none`), prints the
result and falls off the end, returning Python `None` (inner `none`) —
it never builds a display message. -/
def xcrafts_generate_display_json (_device : CduDevice) (values : Snapshot) :
    Option (Option DisplayMsg) :=
  match xcrafts_translate_values values with
  | none => none
  | some _ => some none

/-! The ToLiss A3xx decoder (`ToLiss_a3xx.py`). -/

/-- Unicode glyph constants shared by the scripts. -/
def BALLOT_BOX : Char := '☐'

/-- Up arrow glyph. -/
def UP_ARROW : Char := '↑'

/-- Down arrow glyph. -/
def DOWN_ARROW : Char := '↓'

/-- Left arrow glyph. -/
def LEFT_ARROW : Char := '←'

/-- Right arrow glyph. -/
def RIGHT_ARROW : Char := '→'

/-- Greek capital delta glyph. -/
def GREEK_DELTA : Char := 'Δ'

/-- Degree sign glyph. -/
def DEGREES : Char := '°'

/-- The backquote character (`` ` `` in the Python sources). -/
def BACKQUOTE : Char := Char.ofNat 96

/-- `CONTENT_MAP` from `ToLiss_a3xx.py`. -/
def toLiss_content_map : List (Char × Char) :=
  [(BACKQUOTE, DEGREES), ('|', GREEK_DELTA)]

/-- `SYMBOL_MAP = CONTENT_MAP | {...}` from `ToLiss_a3xx.py`. -/
def toLiss_symbol_map : List (Char × Char) :=
  toLiss_content_map ++
    [('A', '['), ('B', ']'), ('E', BALLOT_BOX),
     ('0', LEFT_ARROW), ('1', RIGHT_ARROW), ('2', LEFT_ARROW),
     ('3', RIGHT_ARROW), ('4', LEFT_ARROW), ('5', RIGHT_ARROW),
     ('C', UP_ARROW), ('D', DOWN_ARROW)]

/-- `COLOR_MAP = {"b": "c"}` from `ToLiss_a3xx.py`. -/
def toLiss_color_map : List (Char × Char) :=
  [('b', 'c')]

/-- `SYMBOL_COLOR_MAP` from `ToLiss_a3xx.py`. -/
def toLiss_symbol_color_map : List (Char × Char) :=
  [('E', 'a'), ('4', 'a'), ('5', 'a')]

/-- `get_color` from `ToLiss_a3xx.py`: white for symbol label/title rows
and the vertical slew dataref; the symbol color table with default "c" for
an "s" suffix; otherwise `COLOR_MAP.get(suffix, suffix)` — the suffix
itself when unmapped. -/
def toLiss_get_color (dataref_name : String) (char : Char) : Char :=
  let suffix := strLastD dataref_name ' '
  if ((pyIn "label" dataref_name || pyIn "title" dataref_name) && suffix = 's')
      || strEndsWith dataref_name "VertSlewKeys" then 'w'
  else if suffix = 's' then (toLiss_symbol_color_map.lookup char).getD 'c'
  else (toLiss_color_map.lookup suffix).getD suffix

/-- `get_char` from `ToLiss_a3xx.py`. -/
def toLiss_get_char (dataref_name : String) (char : Char) : Char :=
  let suffix := strLastD dataref_name ' '
  if suffix = 's' then (toLiss_symbol_map.lookup char).getD char
  else (toLiss_content_map.lookup char).getD char

/-- `get_size` from `ToLiss_a3xx.py`. -/
def toLiss_get_size (dataref_name : String) : Int :=
  if pyIn "scont" dataref_name ||
      (pyIn "label" dataref_name && !(pyIn "labelL" dataref_name)) then 1
  else 0

/-- First digit found scanning a name from the end
(`next(i for i in list(dataref[::-1]) if i.isdigit())`). -/
def firstDigitFromEnd (s : String) : Option Char :=
  s.data.reverse.find? Char.isDigit

/-- The three fixed extra-row datarefs of `ToLiss_a3xx.py`. -/
def toLiss_special_rows : List String :=
  ["AirbusFBW/MCDU1spa", "AirbusFBW/MCDU1spw", "AirbusFBW/MCDU1VertSlewKeys"]

/-- The row-number derivation inside `group_datarefs_by_line` of
`ToLiss_a3xx.py`; `none` is the exception the script catches with its
`try/except`, which drops the dataref. -/
def toLiss_row_of (dataref : String) : Option Int :=
  if pyIn "title" dataref then some 0
  else if toLiss_special_rows.contains dataref then some 7
  else
    match firstDigitFromEnd dataref with
    | some c => charInt c
    | none => none

/-- The character loop of `process_cdu_line` in `ToLiss_a3xx.py` for one
dataref: non-space characters overwrite the cell at their index. -/
def toLiss_put_chars (dataref : String) : List Char → Nat → List Cell → List Cell
  | [], _, line => line
  | c :: rest, i, line =>
    if c = ' ' then toLiss_put_chars dataref rest (i + 1) line
    else
      toLiss_put_chars dataref rest (i + 1)
        (line.set i (Cell.mk (toLiss_get_char dataref c) (toLiss_get_color dataref c)
          (CellSize.int (toLiss_get_size dataref))))

/-- The dataref loop of `process_cdu_line` in `ToLiss_a3xx.py`. A falsy or
all-whitespace value is skipped; on the paired rows a dataref without the
target suffix is skipped; a numeric value of 0 is falsy (skipped) while any
other number raises on `.isspace()`. -/
def toLiss_process_go (row : Nat) (target_suffix : String) :
    List (String × WireVal) → List Cell → Option (List Cell)
  | [], line => some line
  | (dataref, v) :: rest, line =>
    match v with
    | WireVal.n k =>
      if k = 0 then toLiss_process_go row target_suffix rest line else none
    | WireVal.s text =>
      if text = "" || pyIsSpace text then toLiss_process_go row target_suffix rest line
      else if (row ≠ 0 && row ≠ 14) && !(pyIn target_suffix dataref) then
        toLiss_process_go row target_suffix rest line
      else
        toLiss_process_go row target_suffix rest
          (toLiss_put_chars dataref (text.data.take CDU_COLUMNS) 0 line)

/-- `process_cdu_line` from `ToLiss_a3xx.py`. -/
def toLiss_process_cdu_line (line_datarefs : List (String × WireVal)) (row : Nat) :
    Option (List Cell) :=
  toLiss_process_go row (if row % 2 = 0 then "label" else "cont") line_datarefs
    (List.replicate CDU_COLUMNS Cell.empty)

/-- The datarefs that `group_datarefs_by_line` of `ToLiss_a3xx.py` files
under `line`; grouping preserves dict insertion order, so the group equals
a filter of the snapshot. -/
def toLiss_line_datarefs (values : Snapshot) (line : Int) : Snapshot :=
  values.filter (fun p => toLiss_row_of p.1 = some line)

/-- The row loop of `generate_display_json` in `ToLiss_a3xx.py`: row 1 is
skipped, each other row is rendered from its dataref group and
bulk-assigned into the 336-cell buffer. -/
def toLiss_rows_go (values : Snapshot) : List Nat → List Cell → Option (List Cell)
  | [], acc => some acc
  | row :: rest, acc =>
    if row = 1 then toLiss_rows_go values rest acc
    else
      let dataref_line : Int := if row > 0 then ((row / 2 : Nat) : Int) else 0
      let lds := toLiss_line_datarefs values dataref_line
      if lds.isEmpty then toLiss_rows_go values rest acc
      else
        match toLiss_process_cdu_line lds row with
        | none => none
        | some line_chars =>
          toLiss_rows_go values rest
            (pySliceAssign acc ((if row > 0 then row - 1 else row) * CDU_COLUMNS) line_chars)

/-- `generate_display_json` from `ToLiss_a3xx.py`, with `json.dumps`
modelled structurally. -/
def toLiss_generate_display_json (values : Snapshot) : Option DisplayMsg :=
  match toLiss_rows_go values (List.range (CDU_ROWS + 1))
      (List.replicate (CDU_ROWS * CDU_COLUMNS) Cell.empty) with
  | none => none
  | some dd => some ⟨"Display", dd⟩

/-! The FlightFactor 757/767 decoder (`flightfactor_75_76.py`). -/

/-- `CduLine.SYMBOLS` from `flightfactor_75_76.py`. -/
def ff_SYMBOLS : String := "1-sim/cduL/display/symbols"

/-- `CduLine.SYMBOLS_COLOR` from `flightfactor_75_76.py`. -/
def ff_SYMBOLS_COLOR : String := "1-sim/cduL/display/symbolsColor"

/-- `CduLine.SYMBOLS_SIZE` from `flightfactor_75_76.py`. -/
def ff_SYMBOLS_SIZE : String := "1-sim/cduL/display/symbolsSize"

/-- `CHAR_MAP` from `flightfactor_75_76.py`. -/
def ff_char_map : List (Char × Char) :=
  [('\x1d', BALLOT_BOX), ('\x1c', DEGREES)]

/-- `get_char` from `flightfactor_75_76.py`. -/
def ff_get_char (c : Char) : Char :=
  (ff_char_map.lookup c).getD c

/-- String value of a snapshot key: `none` on a missing key (`KeyError`)
or a numeric value (iterating it in `zip` raises `TypeError`). -/
def snapStr (values : Snapshot) (key : String) : Option String :=
  match values.lookup key with
  | some (WireVal.s t) => some t
  | _ => none

/-- Python `zip` over three strings, truncating to the shortest. -/
def zip3Chars : List Char → List Char → List Char → List (Char × Char × Char)
  | a :: as, b :: bs, c :: cs => (a, b, c) :: zip3Chars as bs cs
  | _, _, _ => []

/-- `process_display_datarefs` from `flightfactor_75_76.py`: each `CduLine`
is the `(symbol, size, color)` character triple at one position. -/
def ff_process_display_datarefs (values : Snapshot) :
    Option (List (Char × Char × Char)) :=
  match snapStr values ff_SYMBOLS, snapStr values ff_SYMBOLS_SIZE,
      snapStr values ff_SYMBOLS_COLOR with
  | some symbols, some sizes, some colors =>
    some (zip3Chars symbols.data sizes.data colors.data)
  | _, _, _ => none

/-- The cell built by the row/column loop of `generate_display_json` in
`flightfactor_75_76.py`: a space leaves the cell empty, anything else is
`[get_char(char), "g", size]` — the color is the constant "g". -/
def ff_cell (t : Char × Char × Char) : Cell :=
  if t.1 = ' ' then Cell.empty
  else Cell.mk (ff_get_char t.1) 'g' (CellSize.ch t.2.1)

/-- `generate_display_json` from `flightfactor_75_76.py`. The double loop
reads `processed_datarefs[row*24+col]` for every index in `[0, 336)`, so it
raises `IndexError` (`none`) when fewer than 336 triples exist, and
otherwise fills cell `row*24+col` from triple `row*24+col`. -/
def ff_generate_display_json (values : Snapshot) : Option DisplayMsg :=
  match ff_process_display_datarefs values with
  | none => none
  | some processed =>
    if processed.length < CDU_ROWS * CDU_COLUMNS then none
    else some ⟨"Display", (processed.take (CDU_ROWS * CDU_COLUMNS)).map ff_cell⟩

/-! The Zibo 737-800X decoder (`zibo_737_800x.py`). -/

/-- `CHARACTER_MAPPING` from `zibo_737_800x.py`. -/
def zibo_char_map : List (Char × Char) :=
  [(BACKQUOTE, DEGREES), ('*', BALLOT_BOX)]

/-- `COLOR_MAPPING` from `zibo_737_800x.py`. -/
def zibo_color_map : List (String × Char) :=
  [("GX", 'g'), ("G", 'g'), ("C", 'c'), ("I", 'e'), ("M", 'm')]

/-- The substring after the last occurrence of `c`; `none` when `c` does
not occur (Python `rindex` raises `ValueError`). -/
def afterLastChar (s : String) (c : Char) : Option String :=
  if s.data.contains c then
    some (String.mk ((s.data.reverse.takeWhile (fun x => x ≠ c)).reverse))
  else none

/-- `get_color` from `zibo_737_800x.py`: the name part after the last
underscore looked up in `COLOR_MAPPING`, defaulting to "w"; `none` when
the name has no underscore (`rindex` raises). -/
def zibo_get_color (dataref : String) : Option Char :=
  match afterLastChar dataref '_' with
  | none => none
  | some ending => some ((zibo_color_map.lookup ending).getD 'w')

/-- `get_size` from `zibo_737_800x.py`. -/
def zibo_get_size (dataref : String) : Int :=
  if strEndsWith dataref "X" || strEndsWith dataref "S" then 1 else 0

/-- The row-number derivation of `group_datarefs_by_line` in
`zibo_737_800x.py`; unlike the ToLiss script there is no `try/except`, so
`none` is an uncaught exception. -/
def zibo_row_of (dataref : String) : Option Int :=
  match afterLastChar dataref '/' with
  | none => none
  | some name =>
    if strStartsWith name "Line_entry" then some 7
    else pyInt (pySliceStr name 4 6)

/-- `target_suffixes` of `process_cdu_line` in `zibo_737_800x.py`. -/
def zibo_target_suffixes (row : Nat) : List String :=
  if row % 2 = 0 then ["_X", "_LX", "_GX"]
  else ["_G", "_L", "_M", "_S", "_I", "_SI"]

/-- The character loop of `process_cdu_line` in `zibo_737_800x.py`;
`get_color` is evaluated at the first written character, so a name without
an underscore raises (`none`) only if a non-space character is written. -/
def zibo_put_chars (dataref : String) : List Char → Nat → List Cell → Option (List Cell)
  | [], _, line => some line
  | c :: rest, i, line =>
    if c = ' ' then zibo_put_chars dataref rest (i + 1) line
    else
      match zibo_get_color dataref with
      | none => none
      | some colorv =>
        zibo_put_chars dataref rest (i + 1)
          (line.set i (Cell.mk ((zibo_char_map.lookup c).getD c) colorv
            (CellSize.int (zibo_get_size dataref))))

/-- The dataref loop of `process_cdu_line` in `zibo_737_800x.py`. -/
def zibo_process_go (row : Nat) (suffixes : List String) :
    List (String × WireVal) → List Cell → Option (List Cell)
  | [], line => some line
  | (dataref, v) :: rest, line =>
    match v with
    | WireVal.n k =>
      if k = 0 then zibo_process_go row suffixes rest line else none
    | WireVal.s text =>
      if text = "" || pyIsSpace text then zibo_process_go row suffixes rest line
      else if (row ≠ 0 && row ≠ 14) &&
          !(suffixes.any (fun suf => strEndsWith dataref suf)) then
        zibo_process_go row suffixes rest line
      else
        match zibo_put_chars dataref (text.data.take CDU_COLUMNS) 0 line with
        | none => none
        | some line2 => zibo_process_go row suffixes rest line2

/-- `process_cdu_line` from `zibo_737_800x.py`. -/
def zibo_process_cdu_line (line_datarefs : List (String × WireVal)) (row : Nat) :
    Option (List Cell) :=
  zibo_process_go row (zibo_target_suffixes row) line_datarefs
    (List.replicate CDU_COLUMNS Cell.empty)

/-- The group of datarefs that `group_datarefs_by_line` of
`zibo_737_800x.py` files under `line`; `none` when any dataref of the
snapshot makes the (unguarded) row derivation raise. -/
def zibo_line_datarefs (values : Snapshot) (line : Int) : Option Snapshot :=
  if values.all (fun p => (zibo_row_of p.1).isSome) then
    some (values.filter (fun p => zibo_row_of p.1 = some line))
  else none

/-- The row loop of `get_display_json` in `zibo_737_800x.py` (identical in
shape to the ToLiss row loop). -/
def zibo_rows_go (values : Snapshot) : List Nat → List Cell → Option (List Cell)
  | [], acc => some acc
  | row :: rest, acc =>
    if row = 1 then zibo_rows_go values rest acc
    else
      let dataref_line : Int := if row > 0 then ((row / 2 : Nat) : Int) else 0
      match zibo_line_datarefs values dataref_line with
      | none => none
      | some lds =>
        if lds.isEmpty then zibo_rows_go values rest acc
        else
          match zibo_process_cdu_line lds row with
          | none => none
          | some line_chars =>
            zibo_rows_go values rest
              (pySliceAssign acc ((if row > 0 then row - 1 else row) * CDU_COLUMNS) line_chars)

/-- `get_display_json` from `zibo_737_800x.py`, with `json.dumps` modelled
structurally. -/
def zibo_get_display_json (values : Snapshot) : Option DisplayMsg :=
  match zibo_rows_go values (List.range (CDU_ROWS + 1))
      (List.replicate (CDU_ROWS * CDU_COLUMNS) Cell.empty) with
  | none => none
  | some dd => some ⟨"Display", dd⟩

/-! Feed-client message handling. Each `handle_datarefs` loop receives a
`{"data": {...}}` message, overlays the decoded updates onto
`last_known_values` (skipping ids missing from `dataref_map`) and enqueues
snapshots that differ. The transport's base64 layer is modelled as already
decoded text (`WireVal.s`), to which the scripts' `.replace("\x00", " ")`
is still applied. -/

/-- `dataref_map[dataref_id]` after the `dataref_id not in dataref_map`
guard. -/
def resolveId (dataref_map : List (Int × String)) (id : Int) : Option String :=
  dataref_map.lookup id

/-- `str.rjust(24)`. -/
def rjust24 (s : String) : String :=
  String.mk (List.replicate (24 - s.length) ' ') ++ s

/-- `process_slew_keys` from `ToLiss_a3xx.py`: the slew-key enum decoded
via the match table and right-justified to 24 characters; Python literal
patterns only match the numbers 1, 2, 3. -/
def toLiss_process_slew_keys (value : WireVal) : String :=
  rjust24 (match value with
    | WireVal.n 1 => String.mk [UP_ARROW, DOWN_ARROW]
    | WireVal.n 2 => String.mk [UP_ARROW, ' ']
    | WireVal.n 3 => String.mk [DOWN_ARROW]
    | _ => "")

/-- The per-update value decoding of `handle_datarefs` in
`ToLiss_a3xx.py`: the vertical-slew dataref goes through
`process_slew_keys`; everything else is base64-decoded text with NUL
mapped to space (`none` when the value is a number, which `b64decode`
rejects). -/
def toLiss_decode_value (name : String) (v : WireVal) : Option String :=
  if name = "AirbusFBW/MCDU1VertSlewKeys" then some (toLiss_process_slew_keys v)
  else
    match v with
    | WireVal.s t => some (nulToSpace t)
    | WireVal.n _ => none

/-- The update loop of `handle_datarefs` in `ToLiss_a3xx.py`. The
change-comparison and the `queue.put` sit inside the per-update loop, but
the adoption `last_known_values = new_values` aliases the two dict names
to one object: from then on the comparison is the dict against itself and
always succeeds, so at most one `put` happens per message — at the first
update whose result differs from the pre-message snapshot. State:
candidate `nv` (the dict being mutated), `lk` the pre-message snapshot
object, `put` whether the alias/put already happened; returns the final
candidate and the flag. The Zibo loop (`zibo_737_800x.py`) has the same
shape. -/
def toLiss_handle_go (dataref_map : List (Int × String)) :
    List (Int × WireVal) → Snapshot → Snapshot → Bool →
    Option (Snapshot × Bool)
  | [], nv, _, put => some (nv, put)
  | (id, v) :: rest, nv, lk, put =>
    match resolveId dataref_map id with
    | none => toLiss_handle_go dataref_map rest nv lk put
    | some name =>
      match toLiss_decode_value name v with
      | none => none
      | some d =>
        let nv2 := upsert nv name (WireVal.s d)
        if put then toLiss_handle_go dataref_map rest nv2 lk true
        else if nv2 = lk then toLiss_handle_go dataref_map rest nv2 lk false
        else toLiss_handle_go dataref_map rest nv2 lk true

/-- One inbound data message processed by `handle_datarefs` of
`ToLiss_a3xx.py`: `new_values = dict(last_known_values)` starts the
candidate as a copy. If no update differed, `last_known_values` is still
the untouched previous object and nothing was enqueued; if some update
differed, the single enqueued object is the candidate itself, which keeps
receiving the message's remaining updates until the loop ends — so the
queue entry and the adopted snapshot are both the final candidate. -/
def toLiss_handle_message (dataref_map : List (Int × String))
    (last_known : Snapshot) (updates : List (Int × WireVal)) :
    Option (Snapshot × List Snapshot) :=
  match toLiss_handle_go dataref_map updates last_known last_known false with
  | none => none
  | some (nv, put) => if put then some (nv, [nv]) else some (last_known, [])

/-- The per-update value decoding of `handle_datarefs` in
`flightfactor_75_76.py` and `xcrafts_ejets.py`: text is base64-decoded
with NUL mapped to space, numbers pass through unchanged
(`isinstance(value, str)`). -/
def ff_decode_value : WireVal → WireVal
  | WireVal.s t => WireVal.s (nulToSpace t)
  | WireVal.n k => WireVal.n k

/-- The update loop of `handle_datarefs` in `flightfactor_75_76.py` (and
`handle_dataref_updates` in `xcrafts_ejets.py`): all updates are overlaid
onto the candidate before any comparison. -/
def ff_overlay (dataref_map : List (Int × String)) :
    List (Int × WireVal) → Snapshot → Snapshot
  | [], base => base
  | (id, v) :: rest, base =>
    match resolveId dataref_map id with
    | none => ff_overlay dataref_map rest base
    | some name => ff_overlay dataref_map rest (upsert base name (ff_decode_value v))

/-- One inbound data message processed by `handle_datarefs` of
`flightfactor_75_76.py` (and `handle_dataref_updates` of
`xcrafts_ejets.py`): the complete candidate is compared against
`last_known_values` once, after the loop, and enqueued only if different. -/
def ff_handle_message (dataref_map : List (Int × String)) (last_known : Snapshot)
    (updates : List (Int × WireVal)) : Snapshot × List Snapshot :=
  let nv := ff_overlay dataref_map updates last_known
  if nv = last_known then (last_known, [])
  else (nv, [nv])

/-! The relay queue between `handle_datarefs` and `handle_display_update`.
The `asyncio.Queue` is FIFO: `get` takes the head, `put` appends at the
tail. The display sender holds at most one dequeued snapshot; on
`websockets.exceptions.ConnectionClosed` during `send` it executes
`await queue.put(values)` and breaks to the reconnect loop. `enqueued` is
the history of everything the feed client ever put (ghost state for the
no-loss statement), and `sent` the history of successful sends. -/

/-- Joint state of the relay queue, the display sender and the ghost
histories. -/
structure RelayState where
  queue : List Snapshot
  holding : Option Snapshot
  sent : List Snapshot
  enqueued : List Snapshot
deriving DecidableEq

/-- The events of the two loops that touch the queue: the feed client's
`queue.put` (`enq`), the sender's `queue.get` (`get`), a successful
`websocket.send` (`sendOk`) and a send that raises `ConnectionClosed`,
whose handler requeues the held snapshot (`sendFail`). -/
inductive RelayStep : RelayState → RelayState → Prop
  | enq (s : RelayState) (x : Snapshot) :
      RelayStep s ⟨s.queue ++ [x], s.holding, s.sent, s.enqueued ++ [x]⟩
  | get (s : RelayState) (x : Snapshot) (l : List Snapshot) :
      s.queue = x :: l → s.holding = none →
      RelayStep s ⟨l, some x, s.sent, s.enqueued⟩
  | sendOk (s : RelayState) (x : Snapshot) :
      s.holding = some x →
      RelayStep s ⟨s.queue, none, s.sent ++ [x], s.enqueued⟩
  | sendFail (s : RelayState) (x : Snapshot) :
      s.holding = some x →
      RelayStep s ⟨s.queue ++ [x], none, s.sent, s.enqueued⟩

/-- Finitely many relay steps. -/
inductive RelaySteps : RelayState → RelayState → Prop
  | refl (s : RelayState) : RelaySteps s s
  | tail {a b c : RelayState} : RelaySteps a b → RelayStep b c → RelaySteps a c

/-- The initial relay state: empty queue, idle sender. -/
def relayInit : RelayState := ⟨[], none, [], []⟩

/-- Key lookup in a snapshot (Python `name in dict` / `dict[name]`). -/
def snapGet : Snapshot → String → Option WireVal
  | [], _ => none
  | (k, w) :: t, n => if k = n then some w else snapGet t n

/-- The names that a message's updates resolve to through `dataref_map`,
in order. -/
def resolvedNames (dataref_map : List (Int × String))
    (updates : List (Int × WireVal)) : List String :=
  updates.filterMap (fun u => resolveId dataref_map u.1)

/-- The pure overlay performed by the ToLiss update loop, ignoring the
queueing: every resolved update decoded and stored. -/
def toLiss_overlay (dataref_map : List (Int × String)) :
    List (Int × WireVal) → Snapshot → Option Snapshot
  | [], base => some base
  | (id, v) :: rest, base =>
    match resolveId dataref_map id with
    | none => toLiss_overlay dataref_map rest base
    | some name =>
      match toLiss_decode_value name v with
      | none => none
      | some d => toLiss_overlay dataref_map rest (upsert base name (WireVal.s d))

/-- C1: the claim states that for the dataref value "011310RTE" the packed
prefix parses as row 0, column 0, size 1, color 3 and grid cell 0 receives
the character 'R'. In the code the column digits are "13" (column 12 after
the 1-based conversion) and the color digit is '0', and the extra `- 1` in
the write index places 'R' at cell 11 — cell 0 stays empty. -/
theorem xcrafts_011310RTE_cell0_empty :
    (xcrafts_translate_values [("XCrafts/FMS/CDU_1_03", WireVal.s "011310RTE")]).bind
      (fun g => g.get? 0) = some Cell.empty ∧
    some Cell.empty ≠ some (Cell.mk 'R' 'w' (CellSize.int 1)) := by
  constructor
  · decide
  · decide

/-- C1 (amended): for the dataref value "011310RTE" the decoder parses
row = 0, col = 12, size = 1, color = 0, and because the write index is
`row*24 + col + char_index - 1` the text "RTE" lands in cells 11, 12, 13,
each white ('w', the empty color table's default) and size 1; every other
cell is empty. -/
theorem xcrafts_011310RTE_grid :
    xcrafts_translate_values [("XCrafts/FMS/CDU_1_03", WireVal.s "011310RTE")] =
      some ((((List.replicate (CDU_ROWS * CDU_COLUMNS) Cell.empty).set 11
        (Cell.mk 'R' 'w' (CellSize.int 1))).set 12
        (Cell.mk 'T' 'w' (CellSize.int 1))).set 13
        (Cell.mk 'E' 'w' (CellSize.int 1))) := by decide

/-- C3: the claim states that decoding the snapshot
`{"AirbusFBW/MCDU1title1": "FUEL PRED "}` gives every populated row-0 cell
the color "w". The name's final character is '1', not a color letter, so
`get_color` falls through to `COLOR_MAP.get('1', '1')` and every populated
cell gets color '1'. -/
theorem toLiss_fuel_pred_cell0_color :
    (toLiss_generate_display_json [("AirbusFBW/MCDU1title1", WireVal.s "FUEL PRED ")]).bind
      (fun m => m.data.get? 0) = some (Cell.mk 'F' '1' (CellSize.int 0)) ∧
    ('1' : Char) ≠ 'w' := by
  constructor
  · decide
  · decide

/-- C3 (amended): for the snapshot
`{"AirbusFBW/MCDU1title1": "FUEL PRED "}` the grid holds F,U,E,L in cells
0–3 and P,R,E,D in cells 5–8 of row 0, each with color '1' (the name's
suffix character, since '1' is not in `COLOR_MAP`) and size 0; the space
positions 4 and 9 and every cell from column 10 onward stay empty. -/
theorem toLiss_fuel_pred_grid :
    toLiss_generate_display_json [("AirbusFBW/MCDU1title1", WireVal.s "FUEL PRED ")] =
      some ⟨"Display",
        ((((((((List.replicate (CDU_ROWS * CDU_COLUMNS) Cell.empty).set 0
          (Cell.mk 'F' '1' (CellSize.int 0))).set 1
          (Cell.mk 'U' '1' (CellSize.int 0))).set 2
          (Cell.mk 'E' '1' (CellSize.int 0))).set 3
          (Cell.mk 'L' '1' (CellSize.int 0))).set 5
          (Cell.mk 'P' '1' (CellSize.int 0))).set 6
          (Cell.mk 'R' '1' (CellSize.int 0))).set 7
          (Cell.mk 'E' '1' (CellSize.int 0))).set 8
          (Cell.mk 'D' '1' (CellSize.int 0))⟩ := by decide

/-- C2: the claim states that `generate_display_json` in every variant
returns a wire-format display string. The X-Crafts variant prints the
translation and returns Python `None`: on the (well-formed) docstring
example it completes without raising and produces no message. -/
theorem xcrafts_generate_returns_none :
    xcrafts_generate_display_json CduDevice.captain
      [("XCrafts/FMS/CDU_1_04", WireVal.s "012120 1/1")] = some none := by decide

/-- C5: the claim states every decoder is total over snapshots with only
known dataref keys, regardless of values. "XCrafts/FMS/CDU_1_01" is a key
the X-Crafts catalog filter accepts, yet the value "ABCDEF" makes
`int(value[0:2])` raise an uncaught `ValueError`, crashing the decoder. -/
theorem xcrafts_malformed_value_raises :
    xcrafts_translate_values [("XCrafts/FMS/CDU_1_01", WireVal.s "ABCDEF")] = none := by
  decide

/-- C6: the claim states every non-empty cell written for a character at
logical position (row, col) is stored at index `row*24 + col`, always
inside `[0, 336)`. For the value "010110AB" the packed position is row 0,
col 0, but the `- 1` in the write index sends the first character through
Python's negative-index wrap-around to cell 335; and for "152410AB"
(row 14, col 23) the write index 358 raises an uncaught `IndexError`. -/
theorem xcrafts_write_index_wraps :
    ((xcrafts_translate_values [("XCrafts/FMS/CDU_1_05", WireVal.s "010110AB")]).bind
      (fun g => g.get? 335) = some (Cell.mk 'A' 'w' (CellSize.int 1)) ∧
    (xcrafts_translate_values [("XCrafts/FMS/CDU_1_05", WireVal.s "010110AB")]).bind
      (fun g => g.get? 0) = some (Cell.mk 'B' 'w' (CellSize.int 1))) ∧
    xcrafts_translate_values [("XCrafts/FMS/CDU_1_06", WireVal.s "152410AB")] = none := by
  refine ⟨⟨?_, ?_⟩, ?_⟩ <;> decide

/-- C8: the claim states an empty dataref value causes only that dataref
to be skipped. The X-Crafts loop executes `break` on an empty value: with
an empty first value, the second dataref "011310ABC" (which would populate
cells 11–13) is never processed and the grid stays entirely empty. -/
theorem xcrafts_empty_value_stops_loop :
    xcrafts_translate_values
      [("XCrafts/FMS/CDU_1_01", WireVal.s ""),
       ("XCrafts/FMS/CDU_1_02", WireVal.s "011310ABC")] =
      some (List.replicate (CDU_ROWS * CDU_COLUMNS) Cell.empty) := by decide

/-- C9: the claim states every decoder's color lookup defaults to white
"w" for unmapped suffixes/digits. In the ToLiss decoder an unmapped suffix
is returned as the color itself: for "AirbusFBW/MCDU1cont2y" the suffix
'y' is not in `COLOR_MAP`, and the color is 'y', not 'w'. -/
theorem toLiss_color_default_is_suffix :
    toLiss_get_color "AirbusFBW/MCDU1cont2y" 'A' = 'y' ∧ ('y' : Char) ≠ 'w' := by
  constructor
  · decide
  · decide

/-- C9 (amended): the white default holds for the X-Crafts decoder (its
color table is empty, so every packed digit maps to 'w') and the Zibo
decoder (an after-underscore ending missing from `COLOR_MAPPING` gives
'w'); the ToLiss decoder instead returns the dataref's suffix character
itself when the suffix is unmapped (outside the symbol and slew special
cases), and the FlightFactor decoder ignores color data entirely, giving
every populated cell the constant 'g'. -/
theorem decoder_color_defaults :
    (∀ color : Int, xcrafts_get_color color = 'w') ∧
    (∀ dataref e, afterLastChar dataref '_' = some e →
      zibo_color_map.lookup e = none → zibo_get_color dataref = some 'w') ∧
    (∀ name ch, strLastD name ' ' ≠ 's' → strEndsWith name "VertSlewKeys" = false →
      toLiss_color_map.lookup (strLastD name ' ') = none →
      toLiss_get_color name ch = strLastD name ' ') ∧
    (∀ t : Char × Char × Char, t.1 ≠ ' ' →
      ff_cell t = Cell.mk (ff_get_char t.1) 'g' (CellSize.ch t.2.1)) := by
  refine ⟨fun color => rfl, fun dataref e he hz => ?_, fun name ch hs hv hm => ?_, fun t ht => ?_⟩
  · simp [zibo_get_color, he, hz]
  · simp [toLiss_get_color, hs, hv, hm]
  · simp [ff_cell, ht]

/-- C9 (amended) witness: concrete instances of all four conjuncts. -/
theorem decoder_color_defaults_witness :
    xcrafts_get_color 3 = 'w' ∧
    zibo_get_color "laminar/B738/fmc1/Line00_Z" = some 'w' ∧
    toLiss_get_color "AirbusFBW/MCDU1cont1z" 'A' = 'z' ∧
    ff_cell ('X', '1', 'b') = Cell.mk 'X' 'g' (CellSize.ch '1') := by
  refine ⟨decoder_color_defaults.1 3, ?_, ?_, ?_⟩
  · exact decoder_color_defaults.2.1 "laminar/B738/fmc1/Line00_Z" "Z" (by decide) (by decide)
  · have h := decoder_color_defaults.2.2.1 "AirbusFBW/MCDU1cont1z" 'A'
      (by decide) (by decide) (by decide)
    simpa using h
  · exact decoder_color_defaults.2.2.2 ('X', '1', 'b') (by decide)

theorem snapGet_upsert_self (b : Snapshot) (n : String) (v : WireVal) :
    snapGet (upsert b n v) n = some v := by
  induction b with
  | nil => simp [upsert, snapGet]
  | cons p t ih =>
    obtain ⟨k, w⟩ := p
    by_cases hk : k = n
    · subst hk; simp [upsert, snapGet]
    · simp [upsert, snapGet, hk, ih]

theorem snapGet_upsert_ne (b : Snapshot) (n m : String) (v : WireVal)
    (h : m ≠ n) : snapGet (upsert b n v) m = snapGet b m := by
  induction b with
  | nil =>
    have hnm : ¬ n = m := fun hh => h hh.symm
    simp [upsert, snapGet, hnm]
  | cons p t ih =>
    obtain ⟨k, w⟩ := p
    by_cases hk : k = n
    · subst hk
      have hkm : ¬ k = m := fun hh => h (hh ▸ rfl)
      simp [upsert, snapGet, hkm]
    · by_cases hkm : k = m
      · subst hkm; simp [upsert, snapGet, hk]
      · simp [upsert, snapGet, hk, hkm, ih]

theorem upsert_of_snapGet (b : Snapshot) (n : String) (v : WireVal)
    (h : snapGet b n = some v) : upsert b n v = b := by
  induction b with
  | nil => simp [snapGet] at h
  | cons p t ih =>
    obtain ⟨k, w⟩ := p
    by_cases hk : k = n
    · subst hk
      simp [snapGet] at h
      simp [upsert, h]
    · simp [snapGet, hk] at h
      simp [upsert, hk, ih h]

theorem ff_overlay_snapGet_notin (map : List (Int × String))
    (us : List (Int × WireVal)) (name : String)
    (h : name ∉ resolvedNames map us) (b : Snapshot) :
    snapGet (ff_overlay map us b) name = snapGet b name := by
  induction us generalizing b with
  | nil => simp [ff_overlay]
  | cons u rest ih =>
    obtain ⟨id, v⟩ := u
    match hr : resolveId map id with
    | none =>
      simp only [resolvedNames, List.filterMap_cons, hr] at h
      simp [ff_overlay, hr, ih h]
    | some n0 =>
      simp only [resolvedNames, List.filterMap_cons, hr, List.mem_cons] at h
      push_neg at h
      rw [ff_overlay, hr, ih h.2, snapGet_upsert_ne _ _ _ _ h.1]

theorem ff_overlay_snapGet (map : List (Int × String)) (us : List (Int × WireVal))
    (hnd : (resolvedNames map us).Nodup) (b : Snapshot) (id : Int) (v : WireVal)
    (name : String) (hm : (id, v) ∈ us) (hr : resolveId map id = some name) :
    snapGet (ff_overlay map us b) name = some (ff_decode_value v) := by
  induction us generalizing b with
  | nil => simp at hm
  | cons u rest ih =>
    obtain ⟨id0, v0⟩ := u
    rcases List.mem_cons.mp hm with hh | hm'
    · injection hh with h1 h2
      subst h1; subst h2
      rw [ff_overlay, hr]
      have hnotin : name ∉ resolvedNames map rest := by
        simp only [resolvedNames, List.filterMap_cons, hr] at hnd
        exact hnd.not_mem
      rw [ff_overlay_snapGet_notin map rest name hnotin, snapGet_upsert_self]
    · match hr0 : resolveId map id0 with
      | none =>
        simp only [resolvedNames, List.filterMap_cons, hr0] at hnd
        rw [ff_overlay, hr0]
        exact ih hnd _ hm'
      | some n0 =>
        simp only [resolvedNames, List.filterMap_cons, hr0] at hnd
        rw [ff_overlay, hr0]
        exact ih hnd.of_cons _ hm'

theorem ff_overlay_noop (map : List (Int × String)) (us : List (Int × WireVal))
    (b : Snapshot)
    (h : ∀ id v name, (id, v) ∈ us → resolveId map id = some name →
      snapGet b name = some (ff_decode_value v)) :
    ff_overlay map us b = b := by
  induction us with
  | nil => rfl
  | cons u rest ih =>
    obtain ⟨id0, v0⟩ := u
    match hr0 : resolveId map id0 with
    | none =>
      rw [ff_overlay, hr0]
      exact ih (fun id v name hm hr => h id v name (List.mem_cons_of_mem _ hm) hr)
    | some n0 =>
      simp only [ff_overlay, hr0]
      rw [upsert_of_snapGet _ _ _ (h id0 v0 n0 (List.mem_cons_self _ _) hr0)]
      exact ih (fun id v name hm hr => h id v name (List.mem_cons_of_mem _ hm) hr)

theorem ff_overlay_idem (map : List (Int × String)) (us : List (Int × WireVal))
    (hnd : (resolvedNames map us).Nodup) (b : Snapshot) :
    ff_overlay map us (ff_overlay map us b) = ff_overlay map us b :=
  ff_overlay_noop map us _
    (fun id v name hm hr => ff_overlay_snapGet map us hnd b id v name hm hr)

theorem toLiss_overlay_snapGet_notin (map : List (Int × String))
    (us : List (Int × WireVal)) (name : String)
    (h : name ∉ resolvedNames map us) (b r : Snapshot)
    (ho : toLiss_overlay map us b = some r) :
    snapGet r name = snapGet b name := by
  induction us generalizing b with
  | nil =>
    simp only [toLiss_overlay] at ho
    injection ho with ho; subst ho; rfl
  | cons u rest ih =>
    obtain ⟨id, v⟩ := u
    match hr : resolveId map id with
    | none =>
      simp only [resolvedNames, List.filterMap_cons, hr] at h
      simp only [toLiss_overlay, hr] at ho
      exact ih h _ ho
    | some n0 =>
      simp only [resolvedNames, List.filterMap_cons, hr, List.mem_cons] at h
      push_neg at h
      simp only [toLiss_overlay, hr] at ho
      match hd : toLiss_decode_value n0 v with
      | none => rw [hd] at ho; exact absurd ho (by simp)
      | some d =>
        rw [hd] at ho
        rw [ih h.2 _ ho, snapGet_upsert_ne _ _ _ _ h.1]

theorem toLiss_overlay_snapGet (map : List (Int × String)) (us : List (Int × WireVal))
    (hnd : (resolvedNames map us).Nodup) (b r : Snapshot) (id : Int) (v : WireVal)
    (name : String) (d : String) (hm : (id, v) ∈ us)
    (hr : resolveId map id = some name) (hd : toLiss_decode_value name v = some d)
    (ho : toLiss_overlay map us b = some r) :
    snapGet r name = some (WireVal.s d) := by
  induction us generalizing b with
  | nil => simp at hm
  | cons u rest ih =>
    obtain ⟨id0, v0⟩ := u
    rcases List.mem_cons.mp hm with hh | hm'
    · injection hh with h1 h2
      subst h1; subst h2
      simp only [toLiss_overlay, hr, hd] at ho
      have hnotin : name ∉ resolvedNames map rest := by
        simp only [resolvedNames, List.filterMap_cons, hr] at hnd
        exact hnd.not_mem
      rw [toLiss_overlay_snapGet_notin map rest name hnotin _ _ ho, snapGet_upsert_self]
    · match hr0 : resolveId map id0 with
      | none =>
        simp only [resolvedNames, List.filterMap_cons, hr0] at hnd
        simp only [toLiss_overlay, hr0] at ho
        exact ih hnd _ hm' ho
      | some n0 =>
        simp only [resolvedNames, List.filterMap_cons, hr0] at hnd
        simp only [toLiss_overlay, hr0] at ho
        match hd0 : toLiss_decode_value n0 v0 with
        | none => rw [hd0] at ho; exact absurd ho (by simp)
        | some d0 =>
          rw [hd0] at ho
          exact ih hnd.of_cons _ hm' ho

theorem toLiss_overlay_decode_ok (map : List (Int × String))
    (us : List (Int × WireVal)) (b r : Snapshot)
    (ho : toLiss_overlay map us b = some r) (id : Int) (v : WireVal) (name : String)
    (hm : (id, v) ∈ us) (hr : resolveId map id = some name) :
    ∃ d, toLiss_decode_value name v = some d := by
  induction us generalizing b with
  | nil => simp at hm
  | cons u rest ih =>
    obtain ⟨id0, v0⟩ := u
    rcases List.mem_cons.mp hm with hh | hm'
    · injection hh with h1 h2
      subst h1; subst h2
      simp only [toLiss_overlay, hr] at ho
      match hd : toLiss_decode_value name v with
      | none => rw [hd] at ho; exact absurd ho (by simp)
      | some d => exact ⟨d, rfl⟩
    · match hr0 : resolveId map id0 with
      | none =>
        simp only [toLiss_overlay, hr0] at ho
        exact ih _ ho hm'
      | some n0 =>
        simp only [toLiss_overlay, hr0] at ho
        match hd0 : toLiss_decode_value n0 v0 with
        | none => rw [hd0] at ho; exact absurd ho (by simp)
        | some d0 =>
          rw [hd0] at ho
          exact ih _ ho hm'

theorem toLiss_handle_go_overlay (map : List (Int × String))
    (us : List (Int × WireVal)) :
    ∀ nv lk put p, toLiss_handle_go map us nv lk put = some p →
      toLiss_overlay map us nv = some p.1 := by
  induction us with
  | nil =>
    intro nv lk put p h
    simp only [toLiss_handle_go] at h
    injection h with h; subst h; rfl
  | cons u rest ih =>
    intro nv lk put p h
    obtain ⟨id0, v0⟩ := u
    match hr0 : resolveId map id0 with
    | none =>
      simp only [toLiss_handle_go, hr0] at h
      simp only [toLiss_overlay, hr0]
      exact ih nv lk put p h
    | some n0 =>
      simp only [toLiss_handle_go, hr0] at h
      simp only [toLiss_overlay, hr0]
      match hd0 : toLiss_decode_value n0 v0 with
      | none => rw [hd0] at h; exact absurd h (by simp)
      | some d0 =>
        rw [hd0] at h
        have h2 : (if put then
            toLiss_handle_go map rest (upsert nv n0 (WireVal.s d0)) lk true
          else if upsert nv n0 (WireVal.s d0) = lk then
            toLiss_handle_go map rest (upsert nv n0 (WireVal.s d0)) lk false
          else
            toLiss_handle_go map rest (upsert nv n0 (WireVal.s d0)) lk true) =
            some p := h
        show toLiss_overlay map rest (upsert nv n0 (WireVal.s d0)) = some p.1
        by_cases hput : put = true
        · rw [if_pos hput] at h2
          exact ih _ _ _ p h2
        · rw [if_neg hput] at h2
          by_cases heq : upsert nv n0 (WireVal.s d0) = lk
          · rw [if_pos heq] at h2
            exact ih _ _ _ p h2
          · rw [if_neg heq] at h2
            exact ih _ _ _ p h2

theorem toLiss_handle_go_noop (map : List (Int × String))
    (us : List (Int × WireVal)) (lk : Snapshot)
    (h : ∀ id v name, (id, v) ∈ us → resolveId map id = some name →
      ∃ d, toLiss_decode_value name v = some d ∧
        snapGet lk name = some (WireVal.s d)) :
    toLiss_handle_go map us lk lk false = some (lk, false) := by
  induction us with
  | nil => rfl
  | cons u rest ih =>
    obtain ⟨id0, v0⟩ := u
    match hr0 : resolveId map id0 with
    | none =>
      simp only [toLiss_handle_go, hr0]
      exact ih (fun id v name hm hr => h id v name (List.mem_cons_of_mem _ hm) hr)
    | some n0 =>
      obtain ⟨d0, hd0, hg0⟩ := h id0 v0 n0 (List.mem_cons_self _ _) hr0
      have hup : upsert lk n0 (WireVal.s d0) = lk := upsert_of_snapGet _ _ _ hg0
      simp only [toLiss_handle_go, hr0, hd0, hup, Bool.false_eq_true, if_false,
        if_pos rfl]
      exact ih (fun id v name hm hr => h id v name (List.mem_cons_of_mem _ hm) hr)

/-- C4: the claim states the feed client compares the complete candidate
to the previous snapshot once per message and enqueues the full resulting
snapshot only if it differs. In `ToLiss_a3xx.py` the comparison runs
inside the update loop against the pre-message snapshot, and the enqueue
decision is taken at the first differing update: with two subscription ids
bound to the same dataref name, the message (name→"2", name→"1") over the
snapshot {name: "1"} triggers the put at the first update, the second
update then reverts the (aliased, already enqueued) dict, and the queue
receives a snapshot equal to the previous one — and since the adopted
state is unchanged, repeating the identical message enqueues yet again. -/
theorem toLiss_reverted_update_still_enqueued :
    toLiss_handle_message
        [(1, "AirbusFBW/MCDU1cont1b"), (2, "AirbusFBW/MCDU1cont1b")]
        [("AirbusFBW/MCDU1cont1b", WireVal.s "1")]
        [(1, WireVal.s "2"), (2, WireVal.s "1")] =
      some ([("AirbusFBW/MCDU1cont1b", WireVal.s "1")],
        [[("AirbusFBW/MCDU1cont1b", WireVal.s "1")]]) := by decide

/-- C4 (amended): the FlightFactor/X-Crafts feed loop overlays the whole
message, compares once and enqueues at most one snapshot, a repeat of the
same message enqueueing nothing. The ToLiss (and Zibo) loop compares per
update, but its adoption `last_known_values = new_values` aliases the two
dicts, so after the first differing update every later comparison is the
dict against itself: at most one snapshot is enqueued per message, and —
the enqueued object being mutated in place until the loop ends — it
carries all of the message's updates. When the message's ids resolve to
distinct names, a repeat of the same message enqueues nothing; the
enqueue-only-if-different part fails only in the duplicate-name corner
shown by the counterexample. -/
theorem handle_message_change_detection (map : List (Int × String))
    (last : Snapshot) (us : List (Int × WireVal))
    (hnd : (resolvedNames map us).Nodup) :
    (ff_handle_message map last us).2.length ≤ 1 ∧
    (ff_handle_message map (ff_handle_message map last us).1 us).2 = [] ∧
    (∀ p, toLiss_handle_message map last us = some p → p.2.length ≤ 1) ∧
    (∀ last1 out1, toLiss_handle_message map last us = some (last1, out1) →
      toLiss_handle_message map last1 us = some (last1, [])) := by
  refine ⟨?_, ?_, ?_, ?_⟩
  · unfold ff_handle_message
    by_cases h : ff_overlay map us last = last <;> simp [h]
  · have h1 : (ff_handle_message map last us).1 = ff_overlay map us last := by
      unfold ff_handle_message
      by_cases h : ff_overlay map us last = last <;> simp [h]
    rw [h1]
    unfold ff_handle_message
    simp [ff_overlay_idem map us hnd last]
  · intro p hp
    unfold toLiss_handle_message at hp
    match hgo : toLiss_handle_go map us last last false with
    | none => rw [hgo] at hp; exact absurd hp (by simp)
    | some (nv, put) =>
      rw [hgo] at hp
      have hp2 : (if put then some (nv, [nv]) else some (last, [])) = some p := hp
      by_cases hput : put = true
      · rw [if_pos hput] at hp2
        injection hp2 with hp2; subst hp2; simp
      · rw [if_neg hput] at hp2
        injection hp2 with hp2; subst hp2; simp
  · intro last1 out1 hrun
    unfold toLiss_handle_message at hrun
    match hgo : toLiss_handle_go map us last last false with
    | none => rw [hgo] at hrun; exact absurd hrun (by simp)
    | some (nv, put) =>
      rw [hgo] at hrun
      have hrun2 : (if put then some (nv, [nv]) else some (last, [])) =
          some (last1, out1) := hrun
      have hov : toLiss_overlay map us last = some nv :=
        toLiss_handle_go_overlay map us last last false (nv, put) hgo
      by_cases hput : put = true
      · rw [if_pos hput] at hrun2
        injection hrun2 with hrun2
        have hnv : nv = last1 := congrArg Prod.fst hrun2
        subst hnv
        have hnoop : toLiss_handle_go map us nv nv false = some (nv, false) := by
          apply toLiss_handle_go_noop
          intro id v name hm hr
          obtain ⟨d, hd⟩ := toLiss_overlay_decode_ok map us last nv hov id v name hm hr
          exact ⟨d, hd,
            toLiss_overlay_snapGet map us hnd last nv id v name d hm hr hd hov⟩
        unfold toLiss_handle_message
        rw [hnoop]
        simp
      · rw [if_neg hput] at hrun2
        injection hrun2 with hrun2
        have hl : last = last1 := congrArg Prod.fst hrun2
        subst hl
        unfold toLiss_handle_message
        rw [hgo]
        have hgoal : (if put then some (nv, [nv]) else some (last, [])) =
            some (last, []) := by rw [if_neg hput]
        exact hgoal

/-- C4 (amended) witness: one resolved update, evaluated concretely. -/
theorem handle_message_change_detection_witness :
    (ff_handle_message [(1, "a")] [] [(1, WireVal.s "v")]).2.length ≤ 1 ∧
    (ff_handle_message [(1, "a")]
      (ff_handle_message [(1, "a")] [] [(1, WireVal.s "v")]).1
      [(1, WireVal.s "v")]).2 = [] ∧
    (([("a", WireVal.s "v")], ([] : List Snapshot)) :
      Snapshot × List Snapshot).2.length ≤ 1 ∧
    toLiss_handle_message [(1, "a")] [("a", WireVal.s "v")] [(1, WireVal.s "v")] =
      some ([("a", WireVal.s "v")], []) := by
  have h := handle_message_change_detection [(1, "a")] [] [(1, WireVal.s "v")] (by decide)
  have h2 := handle_message_change_detection [(1, "a")] [("a", WireVal.s "v")]
    [(1, WireVal.s "v")] (by decide)
  exact ⟨h.1, h.2.1,
    h2.2.2.1 ([("a", WireVal.s "v")], []) (by decide),
    h2.2.2.2 [("a", WireVal.s "v")] [] (by decide)⟩

theorem pyListSet_length {α : Type} (l : List α) (i : Int) (c : α) (l2 : List α)
    (h : pyListSet l i c = some l2) : l2.length = l.length := by
  unfold pyListSet at h
  split at h
  · injection h with h; subst h; simp
  · split at h
    · injection h with h; subst h; simp
    · exact absurd h (by simp)

theorem xcrafts_put_text_length (index color size : Int) :
    ∀ text ci acc acc2, xcrafts_put_text index color size text ci acc = some acc2 →
      acc2.length = acc.length := by
  intro text
  induction text with
  | nil =>
    intro ci acc acc2 h
    simp only [xcrafts_put_text] at h
    injection h with h; subst h; rfl
  | cons c rest ih =>
    intro ci acc acc2 h
    simp only [xcrafts_put_text] at h
    split at h
    · injection h with h; subst h; rfl
    · split at h
      · exact ih _ _ _ h
      · split at h
        · exact absurd h (by simp)
        · rename_i acc1 hset
          rw [ih _ _ _ h]
          exact pyListSet_length _ _ _ _ hset

theorem xcrafts_translate_go_length :
    ∀ values acc acc2, xcrafts_translate_go values acc = some acc2 →
      acc2.length = acc.length := by
  intro values
  induction values with
  | nil =>
    intro acc acc2 h
    simp only [xcrafts_translate_go] at h
    injection h with h; subst h; rfl
  | cons p rest ih =>
    intro acc acc2 h
    obtain ⟨k, v⟩ := p
    match v with
    | WireVal.n _ => exact absurd h (by simp [xcrafts_translate_go])
    | WireVal.s value =>
      simp only [xcrafts_translate_go] at h
      split at h
      · injection h with h; subst h; rfl
      · split at h
        · split at h
          · split at h
            · exact ih _ _ h
            · split at h
              · exact absurd h (by simp)
              · rename_i acc1 hput
                rw [ih _ _ h]
                exact xcrafts_put_text_length _ _ _ _ _ _ _ hput
          · exact absurd h (by simp)
        · exact absurd h (by simp)

theorem xcrafts_translate_length (values : Snapshot) (g : List Cell)
    (h : xcrafts_translate_values values = some g) :
    g.length = CDU_ROWS * CDU_COLUMNS := by
  have := xcrafts_translate_go_length values _ _ h
  simpa using this

theorem toLiss_put_chars_length (dataref : String) :
    ∀ chars i line, (toLiss_put_chars dataref chars i line).length = line.length := by
  intro chars
  induction chars with
  | nil => intro i line; rfl
  | cons c rest ih =>
    intro i line
    simp only [toLiss_put_chars]
    split
    · exact ih _ _
    · rw [ih _ _]; simp

theorem toLiss_process_go_length (row : Nat) (suf : String) :
    ∀ lds line line2, toLiss_process_go row suf lds line = some line2 →
      line2.length = line.length := by
  intro lds
  induction lds with
  | nil =>
    intro line line2 h
    simp only [toLiss_process_go] at h
    injection h with h; subst h; rfl
  | cons p rest ih =>
    intro line line2 h
    obtain ⟨dataref, v⟩ := p
    match v with
    | WireVal.n k =>
      simp only [toLiss_process_go] at h
      split at h
      · exact ih _ _ h
      · exact absurd h (by simp)
    | WireVal.s text =>
      simp only [toLiss_process_go] at h
      split at h
      · exact ih _ _ h
      · split at h
        · exact ih _ _ h
        · rw [ih _ _ h]
          exact toLiss_put_chars_length _ _ _ _

theorem toLiss_process_cdu_line_length (lds : List (String × WireVal)) (row : Nat)
    (line : List Cell) (h : toLiss_process_cdu_line lds row = some line) :
    line.length = CDU_COLUMNS := by
  have := toLiss_process_go_length row _ lds _ _ h
  simpa using this

theorem pySliceAssign_length {α : Type} (l : List α) (start : Nat) (repl : List α)
    (h : start + repl.length ≤ l.length) :
    (pySliceAssign l start repl).length = l.length := by
  simp only [pySliceAssign, List.length_append, List.length_take, List.length_drop]
  omega

theorem toLiss_rows_go_length (values : Snapshot) :
    ∀ rows acc acc2, (∀ r ∈ rows, r ≤ CDU_ROWS) →
      acc.length = CDU_ROWS * CDU_COLUMNS →
      toLiss_rows_go values rows acc = some acc2 →
      acc2.length = CDU_ROWS * CDU_COLUMNS := by
  intro rows
  induction rows with
  | nil =>
    intro acc acc2 _ hlen h
    simp only [toLiss_rows_go] at h
    injection h with h; subst h; exact hlen
  | cons row rest ih =>
    intro acc acc2 hr hlen h
    have hrow : row ≤ CDU_ROWS := hr row (List.mem_cons_self _ _)
    have hrest : ∀ r ∈ rest, r ≤ CDU_ROWS := fun r hm => hr r (List.mem_cons_of_mem _ hm)
    have hrow14 : row ≤ 14 := hrow
    simp only [toLiss_rows_go] at h
    split at h
    · exact ih _ _ hrest hlen h
    · split at h <;>
        [skip; skip] <;>
      · split at h
        · exact ih _ _ hrest hlen h
        · split at h
          · exact absurd h (by simp)
          · rename_i line_chars hline
            refine ih _ _ hrest ?_ h
            have h24 : line_chars.length = CDU_COLUMNS :=
              toLiss_process_cdu_line_length _ _ _ hline
            rw [pySliceAssign_length]
            · exact hlen
            · rw [h24, hlen]
              simp only [CDU_ROWS, CDU_COLUMNS]
              omega

theorem toLiss_generate_shape (values : Snapshot) (m : DisplayMsg)
    (h : toLiss_generate_display_json values = some m) :
    m.target = "Display" ∧ m.data.length = CDU_ROWS * CDU_COLUMNS := by
  unfold toLiss_generate_display_json at h
  split at h
  · exact absurd h (by simp)
  · rename_i dd hdd
    injection h with h; subst h
    refine ⟨rfl, ?_⟩
    refine toLiss_rows_go_length values _ _ _ ?_ (by simp) hdd
    intro r hm
    have := List.mem_range.mp hm
    omega

theorem ff_generate_shape (values : Snapshot) (m : DisplayMsg)
    (h : ff_generate_display_json values = some m) :
    m.target = "Display" ∧ m.data.length = CDU_ROWS * CDU_COLUMNS := by
  unfold ff_generate_display_json at h
  split at h
  · exact absurd h (by simp)
  · split at h
    · exact absurd h (by simp)
    · rename_i processed hproc hge
      injection h with h; subst h
      refine ⟨rfl, ?_⟩
      simp only [List.length_map, List.length_take]
      omega

theorem zibo_put_chars_length (dataref : String) :
    ∀ chars i line line2, zibo_put_chars dataref chars i line = some line2 →
      line2.length = line.length := by
  intro chars
  induction chars with
  | nil =>
    intro i line line2 h
    simp only [zibo_put_chars] at h
    injection h with h; subst h; rfl
  | cons c rest ih =>
    intro i line line2 h
    simp only [zibo_put_chars] at h
    split at h
    · exact ih _ _ _ h
    · split at h
      · exact absurd h (by simp)
      · rw [ih _ _ _ h]; simp

theorem zibo_process_go_length (row : Nat) (sufs : List String) :
    ∀ lds line line2, zibo_process_go row sufs lds line = some line2 →
      line2.length = line.length := by
  intro lds
  induction lds with
  | nil =>
    intro line line2 h
    simp only [zibo_process_go] at h
    injection h with h; subst h; rfl
  | cons p rest ih =>
    intro line line2 h
    obtain ⟨dataref, v⟩ := p
    match v with
    | WireVal.n k =>
      simp only [zibo_process_go] at h
      split at h
      · exact ih _ _ h
      · exact absurd h (by simp)
    | WireVal.s text =>
      simp only [zibo_process_go] at h
      split at h
      · exact ih _ _ h
      · split at h
        · exact ih _ _ h
        · split at h
          · exact absurd h (by simp)
          · rename_i line1 hput
            rw [ih _ _ h]
            exact zibo_put_chars_length _ _ _ _ _ hput

theorem zibo_rows_go_length (values : Snapshot) :
    ∀ rows acc acc2, (∀ r ∈ rows, r ≤ CDU_ROWS) →
      acc.length = CDU_ROWS * CDU_COLUMNS →
      zibo_rows_go values rows acc = some acc2 →
      acc2.length = CDU_ROWS * CDU_COLUMNS := by
  intro rows
  induction rows with
  | nil =>
    intro acc acc2 _ hlen h
    simp only [zibo_rows_go] at h
    injection h with h; subst h; exact hlen
  | cons row rest ih =>
    intro acc acc2 hr hlen h
    have hrow : row ≤ CDU_ROWS := hr row (List.mem_cons_self _ _)
    have hrest : ∀ r ∈ rest, r ≤ CDU_ROWS := fun r hm => hr r (List.mem_cons_of_mem _ hm)
    have hrow14 : row ≤ 14 := hrow
    simp only [zibo_rows_go] at h
    split at h
    · exact ih _ _ hrest hlen h
    · split at h
      · exact absurd h (by simp)
      · split at h
        · exact ih _ _ hrest hlen h
        · split at h
          · exact absurd h (by simp)
          · rename_i line_chars hline
            refine ih _ _ hrest ?_ h
            have h24 : line_chars.length = CDU_COLUMNS := by
              have := zibo_process_go_length row _ _ _ _ hline
              simpa using this
            rw [pySliceAssign_length]
            · exact hlen
            · rw [h24, hlen]
              simp only [CDU_ROWS, CDU_COLUMNS]
              split <;> omega

theorem zibo_generate_shape (values : Snapshot) (m : DisplayMsg)
    (h : zibo_get_display_json values = some m) :
    m.target = "Display" ∧ m.data.length = CDU_ROWS * CDU_COLUMNS := by
  unfold zibo_get_display_json at h
  split at h
  · exact absurd h (by simp)
  · rename_i dd hdd
    injection h with h; subst h
    refine ⟨rfl, ?_⟩
    refine zibo_rows_go_length values _ _ _ ?_ (by simp) hdd
    intro r hm
    have := List.mem_range.mp hm
    omega

/-- C2 (amended): the ToLiss, FlightFactor and Zibo variants serialize
every snapshot they successfully decode into a display message with target
"Display" and exactly 336 data entries (each entry being empty or a
character/color/size triple by construction of `Cell`); the X-Crafts
variant's `generate_display_json` never builds a message: whenever it
completes it returns Python `None`, and its `websocket.send` line is
commented out. -/
theorem generate_display_json_wire_format (values : Snapshot) :
    (∀ m, toLiss_generate_display_json values = some m →
      m.target = "Display" ∧ m.data.length = CDU_ROWS * CDU_COLUMNS) ∧
    (∀ m, ff_generate_display_json values = some m →
      m.target = "Display" ∧ m.data.length = CDU_ROWS * CDU_COLUMNS) ∧
    (∀ m, zibo_get_display_json values = some m →
      m.target = "Display" ∧ m.data.length = CDU_ROWS * CDU_COLUMNS) ∧
    (∀ r, xcrafts_generate_display_json CduDevice.captain values = some r →
      r = none) := by
  refine ⟨fun m h => toLiss_generate_shape values m h,
          fun m h => ff_generate_shape values m h,
          fun m h => zibo_generate_shape values m h,
          fun r h => ?_⟩
  unfold xcrafts_generate_display_json at h
  split at h
  · exact absurd h (by simp)
  · injection h with h; exact h.symm

/-- C2 (amended) witness: each variant evaluated on a concrete snapshot. -/
theorem generate_display_json_wire_format_witness :
    ((DisplayMsg.mk "Display" (List.replicate (CDU_ROWS * CDU_COLUMNS) Cell.empty)).target =
        "Display" ∧
      (DisplayMsg.mk "Display"
        (List.replicate (CDU_ROWS * CDU_COLUMNS) Cell.empty)).data.length =
        CDU_ROWS * CDU_COLUMNS) ∧
    ((DisplayMsg.mk "Display" (List.replicate (CDU_ROWS * CDU_COLUMNS) Cell.empty)).target =
        "Display" ∧
      (DisplayMsg.mk "Display"
        (List.replicate (CDU_ROWS * CDU_COLUMNS) Cell.empty)).data.length =
        CDU_ROWS * CDU_COLUMNS) ∧
    (Option.none (α := DisplayMsg) = none) := by
  refine ⟨(generate_display_json_wire_format []).1 _ (by decide),
          (generate_display_json_wire_format
            [(ff_SYMBOLS, WireVal.s (String.mk (List.replicate (CDU_ROWS * CDU_COLUMNS) ' '))),
             (ff_SYMBOLS_SIZE, WireVal.s (String.mk (List.replicate (CDU_ROWS * CDU_COLUMNS) ' '))),
             (ff_SYMBOLS_COLOR, WireVal.s (String.mk (List.replicate (CDU_ROWS * CDU_COLUMNS) ' ')))]).2.1
            _ (by decide),
          (generate_display_json_wire_format
            [("XCrafts/FMS/CDU_1_01", WireVal.s " ")]).2.2.2 none (by decide)⟩

/-- C6 (amended): every decoder run that completes yields a grid of
exactly 336 cells — the sparse writes never change the buffer length. The
row/column placement half of the original claim fails in the X-Crafts
decoder (see its wrap-around counterexample): the k-th character of a
packed value is stored at `row*24 + col + k - 1`, which wraps to 335 for
packed position (1,1) and raises `IndexError` past cell 335; the other
three decoders only assign within the fixed 336-cell buffer. -/
theorem decoder_grid_336 (values : Snapshot) :
    (∀ g, xcrafts_translate_values values = some g →
      g.length = CDU_ROWS * CDU_COLUMNS) ∧
    (∀ m, toLiss_generate_display_json values = some m →
      m.data.length = CDU_ROWS * CDU_COLUMNS) ∧
    (∀ m, ff_generate_display_json values = some m →
      m.data.length = CDU_ROWS * CDU_COLUMNS) ∧
    (∀ m, zibo_get_display_json values = some m →
      m.data.length = CDU_ROWS * CDU_COLUMNS) :=
  ⟨fun g h => xcrafts_translate_length values g h,
   fun m h => (toLiss_generate_shape values m h).2,
   fun m h => (ff_generate_shape values m h).2,
   fun m h => (zibo_generate_shape values m h).2⟩

/-- C6 (amended) witness: concrete runs of the X-Crafts, ToLiss and Zibo
decoders. -/
theorem decoder_grid_336_witness :
    ((List.replicate (CDU_ROWS * CDU_COLUMNS) Cell.empty).set 335
      (Cell.mk 'Z' 'w' (CellSize.int 1))).length = CDU_ROWS * CDU_COLUMNS ∧
    (List.replicate (CDU_ROWS * CDU_COLUMNS) Cell.empty).length =
      CDU_ROWS * CDU_COLUMNS := by
  refine ⟨(decoder_grid_336 [("XCrafts/FMS/CDU_1_07", WireVal.s "010110Z")]).1 _ (by decide),
          (decoder_grid_336 []).2.2.2 (DisplayMsg.mk "Display"
            (List.replicate (CDU_ROWS * CDU_COLUMNS) Cell.empty)) (by decide)⟩

theorem toLiss_rows_go_congr (v1 v2 : Snapshot)
    (h : ∀ l, toLiss_line_datarefs v1 l = toLiss_line_datarefs v2 l) :
    ∀ rows acc, toLiss_rows_go v1 rows acc = toLiss_rows_go v2 rows acc := by
  intro rows
  induction rows with
  | nil => intro acc; rfl
  | cons row rest ih =>
    intro acc
    simp only [toLiss_rows_go, h]
    split
    · exact ih acc
    · split
      all_goals
        split
        · exact ih acc
        · split
          · rfl
          · exact ih _

/-- C5 (amended): the ToLiss grouping protects its row derivation with
`try/except`: a dataref whose name yields no row number is dropped and the
rest of the snapshot decodes exactly as if the dataref were absent. (The
totality the claim asserts for every decoder fails elsewhere: the X-Crafts
decoder raises on a malformed packed prefix — see its counterexample — and
the Zibo row derivation and the FlightFactor indexing are unguarded.) -/
theorem toLiss_decode_skips_bad_dataref (name : String) (v : WireVal)
    (pre post : Snapshot) (h : toLiss_row_of name = none) :
    toLiss_generate_display_json (pre ++ (name, v) :: post) =
      toLiss_generate_display_json (pre ++ post) := by
  unfold toLiss_generate_display_json
  rw [toLiss_rows_go_congr (pre ++ (name, v) :: post) (pre ++ post) (fun l => by
    simp [toLiss_line_datarefs, List.filter_append, List.filter_cons, h])]

/-- C5 (amended) witness: an ungroupable dataref (no digit in the name)
with a numeric value is dropped without affecting the title row. -/
theorem toLiss_decode_skips_bad_dataref_witness :
    toLiss_generate_display_json
        [("AirbusFBW/MCDUsp", WireVal.n 5), ("AirbusFBW/MCDU1title1", WireVal.s "HI")] =
      toLiss_generate_display_json [("AirbusFBW/MCDU1title1", WireVal.s "HI")] :=
  toLiss_decode_skips_bad_dataref "AirbusFBW/MCDUsp" (WireVal.n 5) []
    [("AirbusFBW/MCDU1title1", WireVal.s "HI")] (by decide)

theorem toLiss_put_chars_get? (dataref : String) :
    ∀ chars i line j,
      (j < i ∨ chars.get? (j - i) = some ' ' ∨ chars.get? (j - i) = none) →
      (toLiss_put_chars dataref chars i line).get? j = line.get? j := by
  intro chars
  induction chars with
  | nil => intro i line j _; rfl
  | cons c rest ih =>
    intro i line j hj
    simp only [toLiss_put_chars]
    split
    · rename_i hc
      apply ih
      rcases hj with hj | hj | hj
      · exact Or.inl (by omega)
      · by_cases hji : j < i + 1
        · exact Or.inl hji
        · right; left
          have hshift : j - i = (j - (i + 1)) + 1 := by omega
          rw [hshift] at hj
          simpa using hj
      · by_cases hji : j < i + 1
        · exact Or.inl hji
        · right; right
          have hshift : j - i = (j - (i + 1)) + 1 := by omega
          rw [hshift] at hj
          simpa using hj
    · rename_i hc
      have hji : i ≠ j := by
        intro hji; subst hji
        rcases hj with hj | hj | hj
        · omega
        · simp at hj; exact hc hj
        · simp at hj
      rw [ih (i + 1) _ j ?_, List.get?_set_ne _ _ hji]
      rcases hj with hj | hj | hj
      · exact Or.inl (by omega)
      · by_cases hji2 : j < i + 1
        · exact Or.inl hji2
        · right; left
          have hshift : j - i = (j - (i + 1)) + 1 := by omega
          rw [hshift] at hj
          simpa using hj
      · by_cases hji2 : j < i + 1
        · exact Or.inl hji2
        · right; right
          have hshift : j - i = (j - (i + 1)) + 1 := by omega
          rw [hshift] at hj
          simpa using hj

theorem toLiss_process_go_ws_skip (row : Nat) (suf name t : String)
    (ht : t = "" ∨ pyIsSpace t = true) :
    ∀ pre post line,
      toLiss_process_go row suf (pre ++ (name, WireVal.s t) :: post) line =
        toLiss_process_go row suf (pre ++ post) line := by
  intro pre
  induction pre with
  | nil =>
    intro post line
    rcases ht with ht | ht <;> simp [toLiss_process_go, ht]
  | cons p rest ih =>
    intro post line
    obtain ⟨dr, v⟩ := p
    match v with
    | WireVal.n k =>
      simp only [List.cons_append, toLiss_process_go]
      split
      · exact ih post line
      · rfl
    | WireVal.s text =>
      simp only [List.cons_append, toLiss_process_go]
      split
      · exact ih post line
      · split
        · exact ih post line
        · exact ih post _

theorem xcrafts_put_text_spaces (index color size : Int) :
    ∀ text ci acc, (∀ c ∈ text, c = ' ') →
      xcrafts_put_text index color size text ci acc = some acc := by
  intro text
  induction text with
  | nil => intro ci acc _; rfl
  | cons c rest ih =>
    intro ci acc hc
    simp only [xcrafts_put_text]
    split
    · rfl
    · rw [if_pos (hc c (List.mem_cons_self _ _))]
      exact ih _ _ (fun x hx => hc x (List.mem_cons_of_mem _ hx))

theorem zibo_put_chars_spaces (dataref : String) :
    ∀ text ci line, (∀ c ∈ text, c = ' ') →
      zibo_put_chars dataref text ci line = some line := by
  intro text
  induction text with
  | nil => intro ci line _; rfl
  | cons c rest ih =>
    intro ci line hc
    simp only [zibo_put_chars]
    rw [if_pos (hc c (List.mem_cons_self _ _))]
    exact ih _ _ (fun x hx => hc x (List.mem_cons_of_mem _ hx))

theorem zibo_process_go_ws_skip (row : Nat) (sufs : List String) (name t : String)
    (ht : t = "" ∨ pyIsSpace t = true) :
    ∀ pre post line,
      zibo_process_go row sufs (pre ++ (name, WireVal.s t) :: post) line =
        zibo_process_go row sufs (pre ++ post) line := by
  intro pre
  induction pre with
  | nil =>
    intro post line
    rcases ht with ht | ht <;> simp [zibo_process_go, ht]
  | cons p rest ih =>
    intro post line
    obtain ⟨dr, v⟩ := p
    match v with
    | WireVal.n k =>
      simp only [List.cons_append, zibo_process_go]
      split
      · exact ih post line
      · rfl
    | WireVal.s text =>
      simp only [List.cons_append, zibo_process_go]
      split
      · exact ih post line
      · split
        · exact ih post line
        · split
          · rfl
          · exact ih post _

/-- C8 (amended): space characters never overwrite a cell: in the ToLiss
character loop a space leaves the cell at its position unchanged, and the
Zibo and X-Crafts character loops write nothing for all-space text (the
FlightFactor loop builds each cell from a fresh triple, a space giving the
empty cell). An empty or whitespace-only value is skipped with no effect
on the rest of the line in the ToLiss and Zibo decoders. The X-Crafts
decoder instead executes `break` on an empty value, abandoning every
remaining dataref of the snapshot (see the counterexample); and the
FlightFactor decoder has no per-dataref skip at all — an empty `symbols`
value truncates the `zip` and its 336-index loop raises an uncaught
`IndexError`. -/
theorem sparse_overlay_space_and_skip :
    (∀ dataref chars line j, chars.get? j = some ' ' →
      (toLiss_put_chars dataref chars 0 line).get? j = line.get? j) ∧
    (∀ row suf name t pre post line, t = "" ∨ pyIsSpace t = true →
      toLiss_process_go row suf (pre ++ (name, WireVal.s t) :: post) line =
        toLiss_process_go row suf (pre ++ post) line) ∧
    (∀ row sufs name t pre post line, t = "" ∨ pyIsSpace t = true →
      zibo_process_go row sufs (pre ++ (name, WireVal.s t) :: post) line =
        zibo_process_go row sufs (pre ++ post) line) ∧
    (∀ dataref text ci line, (∀ c ∈ text, c = ' ') →
      zibo_put_chars dataref text ci line = some line) ∧
    (∀ index color size text ci acc, (∀ c ∈ text, c = ' ') →
      xcrafts_put_text index color size text ci acc = some acc) ∧
    ff_generate_display_json
      [(ff_SYMBOLS, WireVal.s ""), (ff_SYMBOLS_SIZE, WireVal.s "AB"),
       (ff_SYMBOLS_COLOR, WireVal.s "CD")] = none := by
  refine ⟨fun dataref chars line j hj => ?_,
    fun row suf name t pre post line ht =>
      toLiss_process_go_ws_skip row suf name t ht pre post line,
    fun row sufs name t pre post line ht =>
      zibo_process_go_ws_skip row sufs name t ht pre post line,
    fun dataref text ci line hc =>
      zibo_put_chars_spaces dataref text ci line hc,
    fun index color size text ci acc hc =>
      xcrafts_put_text_spaces index color size text ci acc hc,
    by decide⟩
  apply toLiss_put_chars_get?
  right; left; simpa using hj

/-- C8 (amended) witness: a space leaves an existing ToLiss cell intact,
whitespace-only values drop out of the ToLiss and Zibo lines, and
all-space Zibo and X-Crafts texts write nothing. -/
theorem sparse_overlay_space_and_skip_witness :
    (toLiss_put_chars "AirbusFBW/MCDU1cont1b" [' '] 0
        [Cell.mk 'Q' 'w' (CellSize.int 0)]).get? 0 =
      ([Cell.mk 'Q' 'w' (CellSize.int 0)] : List Cell).get? 0 ∧
    toLiss_process_go 3 "cont" [("AirbusFBW/MCDU1cont3b", WireVal.s "  ")]
        (List.replicate CDU_COLUMNS Cell.empty) =
      toLiss_process_go 3 "cont" [] (List.replicate CDU_COLUMNS Cell.empty) ∧
    zibo_process_go 3 ["_G"] [("laminar/B738/fmc1/Line03_G", WireVal.s " ")]
        (List.replicate CDU_COLUMNS Cell.empty) =
      zibo_process_go 3 ["_G"] [] (List.replicate CDU_COLUMNS Cell.empty) ∧
    zibo_put_chars "laminar/B738/fmc1/Line03_G" [' '] 0 [Cell.empty] =
      some [Cell.empty] ∧
    xcrafts_put_text 5 0 1 [' '] 0 (List.replicate 3 Cell.empty) =
      some (List.replicate 3 Cell.empty) := by
  refine ⟨sparse_overlay_space_and_skip.1 "AirbusFBW/MCDU1cont1b" [' ']
      [Cell.mk 'Q' 'w' (CellSize.int 0)] 0 (by decide),
    sparse_overlay_space_and_skip.2.1 3 "cont" "AirbusFBW/MCDU1cont3b" "  "
      [] [] (List.replicate CDU_COLUMNS Cell.empty) (by decide),
    sparse_overlay_space_and_skip.2.2.1 3 ["_G"] "laminar/B738/fmc1/Line03_G" " "
      [] [] (List.replicate CDU_COLUMNS Cell.empty) (by decide),
    sparse_overlay_space_and_skip.2.2.2.1 "laminar/B738/fmc1/Line03_G" [' '] 0
      [Cell.empty] (by decide),
    sparse_overlay_space_and_skip.2.2.2.2.1 5 0 1 [' '] 0 (List.replicate 3 Cell.empty)
      (by decide)⟩

/-- C10 (amended): the queue is FIFO and requeue is a tail append: every
step leaves the queue unchanged, appends exactly one snapshot at the tail
(feed-client put, or the requeue of the held snapshot on send failure), or
removes exactly the head into the sender's hands; so a retried snapshot
goes behind every frame already queued and is dequeued after them — but it
is *delivered* before a newer frame whenever that frame's own send fails
(see the counterexample), so the original claim's delivery order holds
only when the newer frame's send succeeds. -/
theorem relay_fifo_tail_requeue :
    (∀ s t, RelayStep s t → t.queue = s.queue ∨ (∃ a, t.queue = s.queue ++ [a]) ∨
      (∃ a, s.queue = a :: t.queue ∧ t.holding = some a)) ∧
    (∀ s x, s.holding = some x →
      RelayStep s ⟨s.queue ++ [x], none, s.sent, s.enqueued⟩) := by
  constructor
  · intro s t h
    cases h with
    | enq x => exact Or.inr (Or.inl ⟨x, rfl⟩)
    | get x l hq hh => exact Or.inr (Or.inr ⟨x, by simp [hq]⟩)
    | sendOk x hh => exact Or.inl rfl
    | sendFail x hh => exact Or.inr (Or.inl ⟨x, rfl⟩)
  · intro s x hx
    exact RelayStep.sendFail s x hx

/-- C10 (amended) witness: a concrete failed send is a tail-append
requeue. -/
theorem relay_fifo_tail_requeue_witness :
    (([[("q", WireVal.s "0")]] : List Snapshot) = [] ∨
      (∃ a, ([[("q", WireVal.s "0")]] : List Snapshot) = [] ++ [a]) ∨
      (∃ a, ([] : List Snapshot) = a :: [[("q", WireVal.s "0")]] ∧
        (none : Option Snapshot) = some a)) ∧
    RelayStep ⟨[], some [("q", WireVal.s "0")], [], [[("q", WireVal.s "0")]]⟩
      ⟨[] ++ [[("q", WireVal.s "0")]], none, [], [[("q", WireVal.s "0")]]⟩ := by
  constructor
  · exact relay_fifo_tail_requeue.1
      ⟨[], some [("q", WireVal.s "0")], [], [[("q", WireVal.s "0")]]⟩ _
      (RelayStep.sendFail _ [("q", WireVal.s "0")] rfl)
  · exact relay_fifo_tail_requeue.2
      ⟨[], some [("q", WireVal.s "0")], [], [[("q", WireVal.s "0")]]⟩
      [("q", WireVal.s "0")] rfl

/-- C10: the claim states a newer snapshot B enqueued after A was dequeued
is always delivered before the retried A. Counterexample trace: A is
dequeued and its send fails (requeue), B is dequeued next but its send
also fails, so B is requeued behind A and A's retry is delivered first —
the final reachable state has sent history `[A]` with B still queued. -/
theorem relay_retried_delivered_first :
    RelaySteps relayInit
      ⟨[[("b", WireVal.s "2")]], none, [[("a", WireVal.s "1")]],
        [[("a", WireVal.s "1")], [("b", WireVal.s "2")]]⟩ ∧
    [("b", WireVal.s "2")] ∉ ([[("a", WireVal.s "1")]] : List Snapshot) := by
  constructor
  · exact RelaySteps.tail (RelaySteps.tail (RelaySteps.tail (RelaySteps.tail
      (RelaySteps.tail (RelaySteps.tail (RelaySteps.tail (RelaySteps.tail
        (RelaySteps.refl relayInit)
        (RelayStep.enq relayInit [("a", WireVal.s "1")]))
        (RelayStep.get _ [("a", WireVal.s "1")] [] rfl rfl))
        (RelayStep.enq _ [("b", WireVal.s "2")]))
        (RelayStep.sendFail _ [("a", WireVal.s "1")] rfl))
        (RelayStep.get _ [("b", WireVal.s "2")] [[("a", WireVal.s "1")]] rfl rfl))
        (RelayStep.sendFail _ [("b", WireVal.s "2")] rfl))
        (RelayStep.get _ [("a", WireVal.s "1")] [[("b", WireVal.s "2")]] rfl rfl))
        (RelayStep.sendOk _ [("a", WireVal.s "1")] rfl)
  · decide
